import Mathlib

/-!
Verification of the eaiash library (libeaiash) against its natural-language
specification.  The repository ships the public header `eaiash.h` (constants
and API declarations) and the OS glue `io_posix.c` / `io_win32.c`.  The core
algorithm file is not part of the source tree, so the algorithmic components
(epoch parameters, seed hash, dataset item computation, hashimoto, dataset
builder) are modelled from the spec, while every constant and every I/O
helper is translated directly from the source files.

Machine integers are modelled as `Nat` with explicit reduction modulo `2^32`
where the C code works on `uint32_t` words.  C strings are lists of (non-NUL)
characters; indexing a C string at its length yields the NUL terminator.
Fallible C functions returning `NULL` are modelled with `Option`.
-/

/-! ## Constants, translated from eaiash.h (lines 29-41) -/

def EAIASH_REVISION : Nat := 23

def EAIASH_DATASET_BYTES_INIT : Nat := 1073741824

def EAIASH_DATASET_BYTES_GROWTH : Nat := 8388608

def EAIASH_CACHE_BYTES_INIT : Nat := 1073741824

def EAIASH_CACHE_BYTES_GROWTH : Nat := 131072

def EAIASH_EPOCH_LENGTH : Nat := 30000

def EAIASH_MIX_BYTES : Nat := 128

def EAIASH_HASH_BYTES : Nat := 64

def EAIASH_DATASET_PARENTS : Nat := 256

def EAIASH_CACHE_ROUNDS : Nat := 3

def EAIASH_ACCESSES : Nat := 64

/-! ## Epoch parameters

Modelled from the spec: the size-derivation code (`eaiash_get_cachesize` /
`eaiash_get_datasize`) is not under src/; only the `EAIASH_*` constants are.
Per the spec's data-model invariant, the cache and dataset sizes are the
largest values not exceeding the size-growth formula of the epoch number
that are prime multiples of the respective block size (64 bytes for the
cache measured in hash blocks, 128 bytes for the dataset measured in mix
pages).  The growth formulas use the header's constants. -/

/-- Greatest-prime search with explicit fuel, counting down from `n`. -/
def largestPrimeLeAux : Nat → Nat → Nat
  | 0, _ => 2
  | fuel + 1, n =>
    if Nat.Prime n then n
    else if n ≤ 2 then 2
    else largestPrimeLeAux fuel (n - 1)

/-- The greatest prime `≤ n` (and `2` when `n < 2`). -/
def largestPrimeLe (n : Nat) : Nat :=
  largestPrimeLeAux n n

/-- Cache size before the primality adjustment: initial value plus
per-epoch growth, from `EAIASH_CACHE_BYTES_INIT/GROWTH`. -/
def cache_size_init (e : Nat) : Nat :=
  EAIASH_CACHE_BYTES_INIT + EAIASH_CACHE_BYTES_GROWTH * e

/-- Dataset size before the primality adjustment: initial value plus
per-epoch growth, from `EAIASH_DATASET_BYTES_INIT/GROWTH`. -/
def dataset_size_init (e : Nat) : Nat :=
  EAIASH_DATASET_BYTES_INIT + EAIASH_DATASET_BYTES_GROWTH * e

/-- Modelled from the spec: cache size of an epoch, the largest multiple of
`EAIASH_HASH_BYTES` not exceeding the growth formula whose quotient by 64
is prime. -/
def cache_size (e : Nat) : Nat :=
  EAIASH_HASH_BYTES * largestPrimeLe (cache_size_init e / EAIASH_HASH_BYTES)

/-- Modelled from the spec: dataset size of an epoch, the largest multiple
of `EAIASH_MIX_BYTES` not exceeding the growth formula whose quotient by
128 is prime. -/
def dataset_size (e : Nat) : Nat :=
  EAIASH_MIX_BYTES * largestPrimeLe (dataset_size_init e / EAIASH_MIX_BYTES)

/-- Number of 64-byte nodes in the dataset of epoch `e`. -/
def datasetNodes (e : Nat) : Nat :=
  dataset_size e / EAIASH_HASH_BYTES

/-! ## Hashimoto and dataset items

Modelled from the spec: the hashing core (`internal.c`) is not under src/;
only its API declarations in `eaiash.h` are.  Nodes are lists of 16 32-bit
words, the mix is a list of 32 words, and the two cryptographic hash
functions (512-bit and 256-bit) are abstract parameters mapping word lists
to word lists, since their implementation is also outside src/. -/

/-- FNV-style multiply-and-xor combine on 32-bit words. -/
def fnv (x y : Nat) : Nat :=
  ((x * 16777619) ^^^ y) % 4294967296

/-- Modelled from the spec: one dataset element, computed on demand from
the cache by parent mixing (DatasetItem, spec 4.3). -/
def calcDatasetItem (H512 : List Nat → List Nat) (cache : List (List Nat))
    (i : Nat) : List Nat :=
  let n := cache.length
  let base := cache.getD (i % n) (List.replicate 16 0)
  let mix0 := match base with
    | [] => []
    | w :: ws => ((w ^^^ (i % 4294967296)) % 4294967296) :: ws
  let mixF := (List.range EAIASH_DATASET_PARENTS).foldl (fun mix j =>
    let parent := fnv ((i ^^^ j) % 4294967296) (mix.getD (j % 16) 0) % n
    List.zipWith fnv mix (cache.getD parent (List.replicate 16 0))) mix0
  H512 mixF

/-- Modelled from the spec: one hashimoto round (spec 4.5 step 2): pick a
page index from the current mix, fetch the 128-byte page as two adjacent
64-byte nodes through the lookup function, and FNV-combine it into the
mix. -/
def mixStep (s0 numPages : Nat) (lookup : Nat → List Nat)
    (mix : List Nat) (r : Nat) : List Nat :=
  let p := fnv (r ^^^ s0) (mix.getD (r % 32) 0) % numPages
  List.zipWith fnv mix (lookup (2 * p) ++ lookup (2 * p + 1))

/-- Modelled from the spec: the EAIASH_ACCESSES mixing rounds of
hashimoto. -/
def mixRounds (s0 numPages : Nat) (lookup : Nat → List Nat)
    (mix0 : List Nat) : List Nat :=
  (List.range EAIASH_ACCESSES).foldl (mixStep s0 numPages lookup) mix0

/-- Modelled from the spec: fold the 32-word mix into the 8-word cmix by
FNV-combining each group of 4 consecutive words (spec 4.5 step 3). -/
def compressMix (mix : List Nat) : List Nat :=
  (List.range 8).map (fun k =>
    fnv (fnv (fnv (mix.getD (4 * k) 0) (mix.getD (4 * k + 1) 0))
      (mix.getD (4 * k + 2) 0)) (mix.getD (4 * k + 3) 0))

/-- Modelled from the spec: the hashimoto mixing loop (spec 4.5),
parameterized by the dataset-lookup function.  Returns (result, mix_hash). -/
def hashimoto (H512 H256 : List Nat → List Nat) (fullSize : Nat)
    (lookup : Nat → List Nat) (headerHash : List Nat) (nonce : Nat) :
    List Nat × List Nat :=
  let seed := H512 (headerHash ++ [nonce % 4294967296, nonce / 4294967296 % 4294967296])
  let mixF := mixRounds (seed.getD 0 0) (fullSize / EAIASH_MIX_BYTES) lookup (seed ++ seed)
  let cmix := compressMix mixF
  (H256 (seed ++ cmix), cmix)

/-- Modelled from the spec: the materialized dataset of full mode — every
dataset item over the whole index range (DatasetBuilder, spec 4.4). -/
def buildDatasetList (H512 : List Nat → List Nat) (cache : List (List Nat))
    (n : Nat) : List (List Nat) :=
  (List.range n).map (calcDatasetItem H512 cache)

/-- Modelled from the spec: light-mode compute — hashimoto with on-demand
dataset lookups computed from the cache (eaiash_light_compute). -/
def eaiash_light_compute (H512 H256 : List Nat → List Nat) (e : Nat)
    (cache : List (List Nat)) (headerHash : List Nat) (nonce : Nat) :
    List Nat × List Nat :=
  hashimoto H512 H256 (dataset_size e) (calcDatasetItem H512 cache) headerHash nonce

/-- Modelled from the spec: full-mode compute — hashimoto with direct
lookups into a materialized dataset buffer (eaiash_full_compute). -/
def eaiash_full_compute (H512 H256 : List Nat → List Nat) (fullSize : Nat)
    (dataset : List (List Nat)) (headerHash : List Nat) (nonce : Nat) :
    List Nat × List Nat :=
  hashimoto H512 H256 fullSize (fun i => dataset.getD i []) headerHash nonce

/-- Modelled from the spec: the dataset-builder loop of eaiash_full_new.
For each index, the progress callback receives the completion percentage;
a non-zero return aborts generation immediately with no dataset exposed. -/
def buildLoop (H512 : List Nat → List Nat) (callback : Nat → Int)
    (cache : List (List Nat)) (n : Nat) :
    List Nat → List (List Nat) → Option (List (List Nat))
  | [], acc => some acc
  | i :: rest, acc =>
    if callback (i * 100 / n) ≠ 0 then none
    else buildLoop H512 callback cache n rest (acc ++ [calcDatasetItem H512 cache i])

/-- Modelled from the spec: eaiash_full_new — builds the full dataset for
the light handler's epoch, reporting progress through the callback, and
returns no handle when generation is aborted. -/
def eaiash_full_new (H512 : List Nat → List Nat) (callback : Nat → Int)
    (e : Nat) (cache : List (List Nat)) : Option (List (List Nat)) :=
  buildLoop H512 callback cache (datasetNodes e) (List.range (datasetNodes e)) []

/-! ## Seed hash

Modelled from the spec: `eaiash_get_seedhash` is declared in eaiash.h but
implemented outside src/.  The 256-bit hash is an abstract parameter; the
seed of epoch 0 is 32 zero bytes and each following epoch hashes the
previous seed once. -/

/-- Modelled from the spec: the seed hash of an epoch. -/
def seedHashOfEpoch (H : List Nat → List Nat) : Nat → List Nat
  | 0 => List.replicate 32 0
  | e + 1 => H (seedHashOfEpoch H e)

/-- Modelled from the spec: eaiash_get_seedhash — the seed hash of the
epoch containing the given block number. -/
def eaiash_get_seedhash (H : List Nat → List Nat) (blockNumber : Nat) : List Nat :=
  seedHashOfEpoch H (blockNumber / EAIASH_EPOCH_LENGTH)

/-! ## OS glue, translated from io_posix.c and io_win32.c

C strings are lists of non-NUL characters.  Reading a C string at an index
yields the stored character inside the string and the NUL terminator at
position `length` (the byte the C code actually reads there). -/

/-- The byte of a C string at an index: its characters, then NUL. -/
def cStringAt (s : List Char) (i : Nat) : Char :=
  if h : i < s.length then s.get ⟨i, h⟩ else Char.ofNat 0

/-- Translated from io_posix.c lines 37-40: bounds-checked strncat.
Returns none (NULL) when the concatenation would not fit in `destSize`
bytes including the terminating NUL; otherwise appends at most `count`
characters of `src` to `dest`. -/
def eaiash_strncat (dest : List Char) (destSize : Nat) (src : List Char)
    (count : Nat) : Option (List Char) :=
  if dest.length + count + 1 ≤ destSize then some (dest ++ src.take count)
  else none

/-- Translated from io_posix.c lines 53-76: build `dirname` + separator +
`filename`, appending a '/' when the byte at `dirname[strlen(dirname)]`
is not '/'. -/
def eaiash_io_create_filename_posix (dirname filename : List Char)
    (filenameLength : Nat) : Option (List Char) :=
  let dirlen := dirname.length
  let destSize0 := dirlen + filenameLength + 1
  let needSep := cStringAt dirname dirlen ≠ '/'
  let destSize := if needSep then destSize0 + 1 else destSize0
  match eaiash_strncat [] destSize dirname dirlen with
  | none => none
  | some name1 =>
    match (if needSep then eaiash_strncat name1 destSize ['/'] 1 else some name1) with
    | none => none
    | some name2 => eaiash_strncat name2 destSize filename filenameLength

/-- Translated from io_win32.c lines 52-75: same construction with the
Win32 condition `dirname[dirlen] != '\\' || dirname[dirlen] != '/'` and a
backslash separator. -/
def eaiash_io_create_filename_win32 (dirname filename : List Char)
    (filenameLength : Nat) : Option (List Char) :=
  let dirlen := dirname.length
  let destSize0 := dirlen + filenameLength + 1
  let needSep := cStringAt dirname dirlen ≠ '\\' ∨ cStringAt dirname dirlen ≠ '/'
  let destSize := if needSep then destSize0 + 1 else destSize0
  match eaiash_strncat [] destSize dirname dirlen with
  | none => none
  | some name1 =>
    match (if needSep then eaiash_strncat name1 destSize ['\\'] 1 else some name1) with
    | none => none
    | some name2 => eaiash_strncat name2 destSize filename filenameLength

/-- Translated from io_posix.c lines 78-87: eaiash_file_size.  The results
of the `fileno` and `fstat` calls are inputs of the model: `filenoRes` is
the returned descriptor, and `fstatRes fd` is `some size` when `fstat`
succeeds on `fd` and none when it returns non-zero.  The pair returned is
(function result, final value of `*ret_size`), with `retSize0` the value
the output parameter held before the call. -/
def eaiash_file_size (filenoRes : Int) (fstatRes : Int → Option Nat)
    (retSize0 : Nat) : Bool × Nat :=
  if filenoRes = -1 then (false, retSize0)
  else
    match fstatRes filenoRes with
    | none => (false, retSize0)
    | some st_size => (true, st_size)

/-- POSIX errno value for an already-existing path. -/
def EEXIST : Int := 17

/-- Translated from io_posix.c lines 42-46: eaiash_mkdir.  `rc` is the
return value of the mkdir system call and `errnoVal` the errno it left. -/
def eaiash_mkdir (rc : Int) (errnoVal : Int) : Bool :=
  rc != -1 || errnoVal == EEXIST

/-! ### Properties of the greatest-prime search -/

theorem largestPrimeLeAux_prime (fuel n : Nat) :
    Nat.Prime (largestPrimeLeAux fuel n) := by
  induction fuel generalizing n with
  | zero => simpa [largestPrimeLeAux] using Nat.prime_two
  | succ fuel ih =>
    by_cases hp : Nat.Prime n
    · simp [largestPrimeLeAux, hp]
    · by_cases h2 : n ≤ 2
      · simpa [largestPrimeLeAux, hp, h2] using Nat.prime_two
      · simpa [largestPrimeLeAux, hp, h2] using ih (n - 1)

theorem largestPrimeLe_prime (n : Nat) : Nat.Prime (largestPrimeLe n) :=
  largestPrimeLeAux_prime n n

theorem largestPrimeLeAux_le (fuel n : Nat) (h2 : 2 ≤ n) :
    largestPrimeLeAux fuel n ≤ n := by
  induction fuel generalizing n with
  | zero => simpa [largestPrimeLeAux] using h2
  | succ fuel ih =>
    by_cases hp : Nat.Prime n
    · simp [largestPrimeLeAux, hp]
    · by_cases hle : n ≤ 2
      · simp [largestPrimeLeAux, hp, hle]; omega
      · have := ih (n - 1) (by omega)
        simp [largestPrimeLeAux, hp, hle]
        omega

theorem largestPrimeLeAux_ge (fuel n p : Nat) (hp : Nat.Prime p)
    (hpn : p ≤ n) (hfuel : n ≤ fuel + 2) :
    p ≤ largestPrimeLeAux fuel n := by
  induction fuel generalizing n with
  | zero =>
    have := hp.two_le
    simp [largestPrimeLeAux]; omega
  | succ fuel ih =>
    by_cases hpr : Nat.Prime n
    · simpa [largestPrimeLeAux, hpr] using hpn
    · by_cases hle : n ≤ 2
      · have := hp.two_le
        simp [largestPrimeLeAux, hpr, hle]; omega
      · have hne : p ≠ n := fun h => hpr (h ▸ hp)
        simp only [largestPrimeLeAux, hpr, hle, if_false]
        exact ih (n - 1) (by omega) (by omega)

theorem largestPrimeLe_mono {n m : Nat} (h : n ≤ m) :
    largestPrimeLe n ≤ largestPrimeLe m := by
  by_cases h2 : 2 ≤ n
  · have hle : largestPrimeLe n ≤ n := largestPrimeLeAux_le n n h2
    exact largestPrimeLeAux_ge m m (largestPrimeLe n)
      (largestPrimeLe_prime n) (le_trans hle h) (by omega)
  · have : largestPrimeLe n = 2 := by
      interval_cases n <;> rfl
    rw [this]
    exact (largestPrimeLe_prime m).two_le

theorem largestPrimeLe_two_le (n : Nat) : 2 ≤ largestPrimeLe n :=
  (largestPrimeLe_prime n).two_le

/-! ### Derived facts about the sizes -/

theorem cache_size_div (e : Nat) :
    cache_size e / 64 = largestPrimeLe (cache_size_init e / EAIASH_HASH_BYTES) := by
  simp [cache_size, EAIASH_HASH_BYTES, Nat.mul_div_cancel_left]

theorem dataset_size_div (e : Nat) :
    dataset_size e / 128 = largestPrimeLe (dataset_size_init e / EAIASH_MIX_BYTES) := by
  simp [dataset_size, EAIASH_MIX_BYTES, Nat.mul_div_cancel_left]

theorem datasetNodes_eq (e : Nat) :
    datasetNodes e = 2 * (dataset_size e / EAIASH_MIX_BYTES) := by
  rw [datasetNodes, dataset_size]
  generalize largestPrimeLe (dataset_size_init e / EAIASH_MIX_BYTES) = P
  show 128 * P / 64 = 2 * (128 * P / 128)
  omega

theorem datasetNodes_pos (e : Nat) : 0 < datasetNodes e := by
  rw [datasetNodes_eq]
  have h := largestPrimeLe_two_le (dataset_size_init e / EAIASH_MIX_BYTES)
  show 0 < 2 * (dataset_size e / 128)
  rw [dataset_size_div]
  omega

/-! ### Lookup congruence of hashimoto -/

theorem buildDatasetList_getD (H : List Nat → List Nat) (c : List (List Nat))
    {n i : Nat} (h : i < n) :
    (buildDatasetList H c n).getD i [] = calcDatasetItem H c i := by
  unfold buildDatasetList
  rw [List.getD_eq_getElem?_getD, List.getElem?_map, List.getElem?_range h]
  rfl

theorem mixStep_congr (s0 numPages : Nat) (L1 L2 : Nat → List Nat)
    (hpos : 0 < numPages) (hagree : ∀ i, i < 2 * numPages → L1 i = L2 i) :
    mixStep s0 numPages L1 = mixStep s0 numPages L2 := by
  funext mix r
  simp only [mixStep]
  have hp : fnv (r ^^^ s0) (mix.getD (r % 32) 0) % numPages < numPages :=
    Nat.mod_lt _ hpos
  rw [hagree (2 * (fnv (r ^^^ s0) (mix.getD (r % 32) 0) % numPages)) (by omega),
    hagree (2 * (fnv (r ^^^ s0) (mix.getD (r % 32) 0) % numPages) + 1) (by omega)]

theorem mixRounds_congr (s0 numPages : Nat) (L1 L2 : Nat → List Nat)
    (mix0 : List Nat) (hpos : 0 < numPages)
    (hagree : ∀ i, i < 2 * numPages → L1 i = L2 i) :
    mixRounds s0 numPages L1 mix0 = mixRounds s0 numPages L2 mix0 := by
  unfold mixRounds
  rw [mixStep_congr s0 numPages L1 L2 hpos hagree]

theorem hashimoto_congr (H512 H256 : List Nat → List Nat) (fullSize : Nat)
    (L1 L2 : Nat → List Nat) (headerHash : List Nat) (nonce : Nat)
    (hpos : 0 < fullSize / EAIASH_MIX_BYTES)
    (hagree : ∀ i, i < 2 * (fullSize / EAIASH_MIX_BYTES) → L1 i = L2 i) :
    hashimoto H512 H256 fullSize L1 headerHash nonce =
      hashimoto H512 H256 fullSize L2 headerHash nonce := by
  simp only [hashimoto]
  rw [mixRounds_congr _ _ L1 L2 _ hpos hagree]

theorem dataset_pages_pos (e : Nat) : 0 < dataset_size e / EAIASH_MIX_BYTES := by
  show 0 < dataset_size e / 128
  rw [dataset_size_div]
  have := largestPrimeLe_two_le (dataset_size_init e / EAIASH_MIX_BYTES)
  omega

/-! ## Claim theorems -/

/-- Claim C1: for every header_hash, nonce and epoch, light-mode compute
(cache-backed on-demand dataset lookups) and full-mode compute (lookups
into the dataset materialized from the same cache for the same epoch)
produce bit-identical result and mix_hash fields. -/
theorem c1_light_full_equiv (H512 H256 : List Nat → List Nat) (e : Nat)
    (cache : List (List Nat)) (headerHash : List Nat) (nonce : Nat) :
    eaiash_light_compute H512 H256 e cache headerHash nonce =
      eaiash_full_compute H512 H256 (dataset_size e)
        (buildDatasetList H512 cache (datasetNodes e)) headerHash nonce := by
  unfold eaiash_light_compute eaiash_full_compute
  apply hashimoto_congr
  · exact dataset_pages_pos e
  · intro i hi
    have hin : i < datasetNodes e := by rw [datasetNodes_eq]; exact hi
    exact (buildDatasetList_getD H512 cache hin).symm

/-- Claim C2 counterexample: at epoch 1 the pre-adjustment cache size is
2^30 + 2^17, not 2^30 + 2^23, because EAIASH_CACHE_BYTES_GROWTH is 131072. -/
theorem c2_counterexample :
    ¬ (cache_size_init 1 = 2 ^ 30 + 2 ^ 23 * 1 ∧
       dataset_size_init 1 = 2 ^ 30 + 2 ^ 23 * 1) := by
  decide

/-- Claim C2 (amended): for every epoch e, the cache size before the
primality adjustment is 2^30 + 2^17·e and the dataset size before its
primality adjustment is 2^30 + 2^23·e, per the EAIASH_CACHE_BYTES_INIT/
GROWTH and EAIASH_DATASET_BYTES_INIT/GROWTH constants. -/
theorem c2_sizes_pre_adjustment (e : Nat) :
    cache_size_init e = 2 ^ 30 + 2 ^ 17 * e ∧
    dataset_size_init e = 2 ^ 30 + 2 ^ 23 * e := by
  constructor
  · norm_num [cache_size_init, EAIASH_CACHE_BYTES_INIT, EAIASH_CACHE_BYTES_GROWTH]
  · norm_num [dataset_size_init, EAIASH_DATASET_BYTES_INIT, EAIASH_DATASET_BYTES_GROWTH]

/-- Claim C3: in eaiash_io_create_filename the trailing-separator test
reads `dirname[strlen(dirname)]`, which is the NUL terminator, so it never
detects an existing trailing separator and a separator is appended for
every dirname - including ones already ending in a separator - in both the
POSIX and the Win32 variant. -/
theorem c3_create_filename_always_appends (dirname filename : List Char)
    (filenameLength : Nat) :
    cStringAt dirname dirname.length = Char.ofNat 0 ∧
    eaiash_io_create_filename_posix dirname filename filenameLength =
      some (dirname ++ '/' :: filename.take filenameLength) ∧
    eaiash_io_create_filename_win32 dirname filename filenameLength =
      some (dirname ++ '\\' :: filename.take filenameLength) := by
  have hnul : cStringAt dirname dirname.length = Char.ofNat 0 := by
    unfold cStringAt
    simp
  have h1 : eaiash_strncat [] (dirname.length + filenameLength + 1 + 1)
      dirname dirname.length = some dirname := by
    unfold eaiash_strncat
    rw [if_pos (by simp only [List.length_nil]; omega)]
    simp
  refine ⟨hnul, ?_, ?_⟩
  · have hpos := eq_true (show Char.ofNat 0 ≠ '/' by decide)
    simp only [eaiash_io_create_filename_posix]
    rw [hnul]
    simp only [hpos, ite_true, h1]
    have h2 : eaiash_strncat dirname (dirname.length + filenameLength + 1 + 1)
        ['/'] 1 = some (dirname ++ ['/']) := by
      unfold eaiash_strncat
      rw [if_pos (by omega)]
      rfl
    rw [h2]
    have h3 : eaiash_strncat (dirname ++ ['/'])
        (dirname.length + filenameLength + 1 + 1) filename filenameLength =
        some ((dirname ++ ['/']) ++ filename.take filenameLength) := by
      unfold eaiash_strncat
      rw [if_pos (by simp only [List.length_append, List.length_cons,
        List.length_nil]; omega)]
    show eaiash_strncat (dirname ++ ['/'])
        (dirname.length + filenameLength + 1 + 1) filename filenameLength =
      some (dirname ++ '/' :: filename.take filenameLength)
    rw [h3]
    simp
  · have hw := eq_true (show Char.ofNat 0 ≠ '\\' ∨ Char.ofNat 0 ≠ '/' by decide)
    simp only [eaiash_io_create_filename_win32]
    rw [hnul]
    simp only [hw, ite_true, h1]
    have h2 : eaiash_strncat dirname (dirname.length + filenameLength + 1 + 1)
        ['\\'] 1 = some (dirname ++ ['\\']) := by
      unfold eaiash_strncat
      rw [if_pos (by omega)]
      rfl
    rw [h2]
    have h3 : eaiash_strncat (dirname ++ ['\\'])
        (dirname.length + filenameLength + 1 + 1) filename filenameLength =
        some ((dirname ++ ['\\']) ++ filename.take filenameLength) := by
      unfold eaiash_strncat
      rw [if_pos (by simp only [List.length_append, List.length_cons,
        List.length_nil]; omega)]
    show eaiash_strncat (dirname ++ ['\\'])
        (dirname.length + filenameLength + 1 + 1) filename filenameLength =
      some (dirname ++ '\\' :: filename.take filenameLength)
    rw [h3]
    simp

/-- Claim C4: the fixed algorithm constants have exactly the stated
values: epoch length 30000 blocks, MIX_BYTES 128, HASH_BYTES 64,
DATASET_PARENTS 256, CACHE_ROUNDS 3 and ACCESSES 64, matching the
EAIASH_* macro definitions of the public header. -/
theorem c4_constants :
    EAIASH_EPOCH_LENGTH = 30000 ∧ EAIASH_MIX_BYTES = 128 ∧
    EAIASH_HASH_BYTES = 64 ∧ EAIASH_DATASET_PARENTS = 256 ∧
    EAIASH_CACHE_ROUNDS = 3 ∧ EAIASH_ACCESSES = 64 :=
  ⟨rfl, rfl, rfl, rfl, rfl, rfl⟩

/-- Claim C5: when the progress callback returns a non-zero value on its
first invocation, eaiash_full_new reports failure (returns no handle), so
no partial dataset is ever exposed to the caller. -/
theorem c5_full_new_abort (H512 : List Nat → List Nat) (callback : Nat → Int)
    (e : Nat) (cache : List (List Nat)) (h : callback 0 ≠ 0) :
    eaiash_full_new H512 callback e cache = none := by
  unfold eaiash_full_new
  obtain ⟨m, hm⟩ : ∃ m, datasetNodes e = m + 1 :=
    ⟨datasetNodes e - 1, by have := datasetNodes_pos e; omega⟩
  rw [hm, List.range_succ_eq_map]
  simp [buildLoop, h]

/-- Witness for C5 at a concrete always-aborting callback. -/
theorem c5_full_new_abort_w :
    (fun _ : Nat => (1 : Int)) 0 ≠ 0 ∧
    eaiash_full_new (fun l => l) (fun _ : Nat => (1 : Int)) 0 [] = none :=
  ⟨by decide, c5_full_new_abort (fun l => l) (fun _ : Nat => (1 : Int)) 0 []
    (by decide)⟩

/-- Claim C6: cache_size and dataset_size are total non-decreasing
functions of the epoch, cache_size(e)/64 is prime and dataset_size(e)/128
is prime, for all non-negative epoch numbers. -/
theorem c6_sizes_monotone_prime (e f : Nat) (h : e ≤ f) :
    cache_size e ≤ cache_size f ∧ dataset_size e ≤ dataset_size f ∧
    Nat.Prime (cache_size e / 64) ∧ Nat.Prime (dataset_size e / 128) := by
  refine ⟨?_, ?_, ?_, ?_⟩
  · unfold cache_size
    refine Nat.mul_le_mul_left _ (largestPrimeLe_mono (Nat.div_le_div_right ?_))
    unfold cache_size_init EAIASH_CACHE_BYTES_INIT EAIASH_CACHE_BYTES_GROWTH
    omega
  · unfold dataset_size
    refine Nat.mul_le_mul_left _ (largestPrimeLe_mono (Nat.div_le_div_right ?_))
    unfold dataset_size_init EAIASH_DATASET_BYTES_INIT EAIASH_DATASET_BYTES_GROWTH
    omega
  · rw [cache_size_div]
    exact largestPrimeLe_prime _
  · rw [dataset_size_div]
    exact largestPrimeLe_prime _

/-- Witness for C6 at epochs 0 and 1. -/
theorem c6_sizes_monotone_prime_w :
    (0 : Nat) ≤ 1 ∧
    (cache_size 0 ≤ cache_size 1 ∧ dataset_size 0 ≤ dataset_size 1 ∧
     Nat.Prime (cache_size 0 / 64) ∧ Nat.Prime (dataset_size 0 / 128)) :=
  ⟨by decide, c6_sizes_monotone_prime 0 1 (by decide)⟩

/-- Claim C7: eaiash_get_seedhash returns 32 zero bytes for every block
number below the epoch length, and for a block number in epoch e it
returns the e-fold iterate of the 256-bit hash starting from 32 zero
bytes; the seed hash is a deterministic function of the epoch alone. -/
theorem c7_seedhash (H : List Nat → List Nat) (blockNumber : Nat) :
    (blockNumber < EAIASH_EPOCH_LENGTH →
      eaiash_get_seedhash H blockNumber = List.replicate 32 0) ∧
    eaiash_get_seedhash H blockNumber =
      H^[blockNumber / EAIASH_EPOCH_LENGTH] (List.replicate 32 0) := by
  have key : ∀ e, seedHashOfEpoch H e = H^[e] (List.replicate 32 0) := by
    intro e
    induction e with
    | zero => rfl
    | succ e ih => rw [seedHashOfEpoch, ih, Function.iterate_succ_apply']
  constructor
  · intro hbn
    unfold eaiash_get_seedhash
    rw [Nat.div_eq_of_lt hbn]
    rfl
  · exact key _

/-- Witness for C7 at block number 7 and a concrete hash function. -/
theorem c7_seedhash_w :
    7 < EAIASH_EPOCH_LENGTH ∧
    eaiash_get_seedhash (fun l => 1 :: l) 7 = List.replicate 32 0 :=
  ⟨by decide, (c7_seedhash (fun l => 1 :: l) 7).1 (by decide)⟩

/-- Claim C8: the POSIX eaiash_strncat returns NULL exactly when
strlen(dest) + count + 1 exceeds dest_size, and on success the
concatenation (terminating NUL included) writes no byte at or beyond
offset dest_size - the resulting string and its NUL fit strictly inside
the buffer. -/
theorem c8_strncat_bounds (dest : List Char) (destSize : Nat)
    (src : List Char) (count : Nat) :
    (eaiash_strncat dest destSize src count = none ↔
      destSize < dest.length + count + 1) ∧
    (∀ r, eaiash_strncat dest destSize src count = some r →
      r.length + 1 ≤ destSize) := by
  constructor
  · unfold eaiash_strncat
    split
    · rename_i hc
      simp only [reduceCtorEq, false_iff]
      omega
    · rename_i hc
      simp only [true_iff]
      omega
  · intro r hr
    unfold eaiash_strncat at hr
    split at hr
    · rename_i hc
      simp only [Option.some.injEq] at hr
      subst hr
      have := List.length_take_le count src
      simp only [List.length_append]
      omega
    · exact absurd hr (by simp)

/-- Witness for C8 on a concrete successful concatenation. -/
theorem c8_strncat_bounds_w :
    eaiash_strncat ['a'] 5 ['b', 'c'] 2 = some ['a', 'b', 'c'] ∧
    (['a', 'b', 'c'] : List Char).length + 1 ≤ 5 :=
  ⟨by decide, (c8_strncat_bounds ['a'] 5 ['b', 'c'] 2).2 ['a', 'b', 'c']
    (by decide)⟩

/-- Claim C9: eaiash_file_size returns true and stores the stat size into
the output parameter when both the descriptor lookup and the stat call
succeed; when either fails it returns false and the output parameter
keeps its previous value. -/
theorem c9_file_size_spec (filenoRes : Int) (fstatRes : Int → Option Nat)
    (retSize0 : Nat) :
    ((filenoRes = -1 ∨ fstatRes filenoRes = none) →
      eaiash_file_size filenoRes fstatRes retSize0 = (false, retSize0)) ∧
    (∀ sz, filenoRes ≠ -1 → fstatRes filenoRes = some sz →
      eaiash_file_size filenoRes fstatRes retSize0 = (true, sz)) := by
  constructor
  · rintro (h | h)
    · simp [eaiash_file_size, h]
    · by_cases hfd : filenoRes = -1
      · simp [eaiash_file_size, hfd]
      · simp [eaiash_file_size, hfd, h]
  · intro sz hfd hst
    simp [eaiash_file_size, hfd, hst]

/-- Witness for C9 on a concrete successful descriptor and stat result. -/
theorem c9_file_size_spec_w :
    (3 : Int) ≠ -1 ∧
    eaiash_file_size 3 (fun _ : Int => some 42) 0 = (true, 42) :=
  ⟨by decide, (c9_file_size_spec 3 (fun _ : Int => some 42) 0).2 42
    (by decide) rfl⟩

/-- Claim C10: eaiash_mkdir returns true exactly when the mkdir call
succeeds (its return value is not -1) or fails with errno EEXIST. -/
theorem c10_mkdir_spec (rc errnoVal : Int) :
    eaiash_mkdir rc errnoVal = true ↔ (rc ≠ -1 ∨ errnoVal = EEXIST) := by
  simp [eaiash_mkdir]
